import Mathlib

/-!
Verification development for the package-analyzer repository.

The Python sources under src/package_analyzer are shallowly embedded as Lean
definitions.  Python floats are modelled as rationals, Python dictionaries
either as structures (when the key set is fixed) or as association lists,
absent dictionary keys as Option.none, and functions that can raise as
Option- or Except-valued functions.  Network responses are passed in as
explicit arguments, since every component is a pure transformer of the
payloads it receives.
-/

/-! ## String helpers

Python string primitives used by the sources, re-implemented over character
lists so that they compute by kernel reduction.  strLower models str.lower,
strTrim models str.strip with no argument, substrIn models the Python
substring test needle in haystack. -/

def strLower (s : String) : String :=
  String.mk (s.toList.map Char.toLower)

def trimChars (l : List Char) : List Char :=
  ((l.dropWhile Char.isWhitespace).reverse.dropWhile Char.isWhitespace).reverse

def strTrim (s : String) : String :=
  String.mk (trimChars s.toList)

def startsWithL : List Char → List Char → Bool
  | [], _ => true
  | _ :: _, [] => false
  | a :: as, b :: bs => a == b && startsWithL as bs

def containsSub (needle : List Char) : List Char → Bool
  | [] => startsWithL needle []
  | c :: cs => startsWithL needle (c :: cs) || containsSub needle cs

def substrIn (needle haystack : String) : Bool :=
  containsSub needle.toList haystack.toList

/-- Model of the substring taken by the Python idiom s.split(c)[0]: everything
before the first occurrence of the separator character. -/
def beforeChar (c : Char) (s : String) : String :=
  String.mk (s.toList.takeWhile (fun x => x ≠ c))

/-! ## Model of float() on plain decimal literals

security_analyzer.py line 69 parses the cvss_score string with float() inside
a try block; a failed parse contributes nothing.  We model the parse of a
plain decimal literal (optional sign, digits, optional fractional part) as an
exact rational, returned as a numerator and a power-of-ten denominator. -/

def digitsToNat (l : List Char) : Nat :=
  l.foldl (fun n c => 10 * n + (c.toNat - 48)) 0

def parseDecimalParts (s : String) : Option (Int × Nat) :=
  let l := s.toList
  let signAndRest : Int × List Char :=
    match l with
    | '-' :: rest => (-1, rest)
    | '+' :: rest => (1, rest)
    | _ => (1, l)
  let sgn := signAndRest.1
  let l1 := signAndRest.2
  let intPart := l1.takeWhile Char.isDigit
  let rest := l1.dropWhile Char.isDigit
  match rest with
  | [] => if intPart.isEmpty then none else some (sgn * digitsToNat intPart, 1)
  | '.' :: frac =>
    if frac.all Char.isDigit && !(intPart.isEmpty && frac.isEmpty) then
      some (sgn * (digitsToNat intPart * 10 ^ frac.length + digitsToNat frac), 10 ^ frac.length)
    else none
  | _ => none

def parsedToRat (p : Int × Nat) : ℚ :=
  (p.1 : ℚ) / (p.2 : ℚ)

/-! ## SecurityAnalyzer (src/package_analyzer/security_analyzer.py)

A raw OSV vulnerability record is modelled field by field.  An absent JSON
key is Option.none; the affected list is Option so that an explicitly empty
list (which makes line 149 of the source raise IndexError) is distinguished
from an absent key (which line 149 defaults to a singleton empty record). -/

/-- The ecosystem_specific sub-dictionary of an affected entry.  none stands
for an absent key or an empty dictionary (both are falsy at line 101);
affects_security is the truthiness of its affects_security value, with the
get default False of line 102 folded in. -/
structure EcoSpec where
  affects_security : Bool
deriving DecidableEq

structure OsvEvent where
  fixed : Option String
deriving DecidableEq

structure OsvRange where
  rtype : Option String
  events : List OsvEvent
deriving DecidableEq

structure AffectedEntry where
  ecosystem_specific : Option EcoSpec
  ranges : List OsvRange
deriving DecidableEq

structure DBSpec where
  cvss_score : Option String
deriving DecidableEq

structure Vuln where
  id : Option String
  summary : Option String
  details : Option String
  database_specific : Option DBSpec
  affected : Option (List AffectedEntry)
  references : Option (List String)
  published : Option String
  modified : Option String
deriving DecidableEq

/-- The set literal security_critical_packages of lines 10-20. -/
def securityCriticalPackages : List String :=
  ["cryptography", "django", "flask", "requests", "urllib3",
   "pyopenssl", "paramiko", "pyjwt", "python-jose"]

/-- The set literal critical_keywords of lines 21-34. -/
def criticalKeywords : List String :=
  ["remote code execution", "rce", "arbitrary code", "sql injection",
   "authentication bypass", "privilege escalation", "buffer overflow",
   "memory corruption", "denial of service", "information disclosure",
   "path traversal", "xss"]

/-- The keyword list of lines 90-94. -/
def cryptoTerms : List String :=
  ["cryptographic", "encryption", "authentication"]

/-- Lines 63-72: the cvss_score string, when present and truthy, contributes
its float() value; an unparseable string contributes 0. -/
def cvssContribution (db : Option DBSpec) : ℚ :=
  match db with
  | none => 0
  | some d =>
    match d.cvss_score with
    | none => 0
    | some s =>
      if s = "" then 0
      else
        match parseDecimalParts s with
        | some p => parsedToRat p
        | none => 0

/-- Lines 74-78: summary.lower() concatenated with str(details).lower(),
with absent keys defaulting to the empty string. -/
def descriptionOf (v : Vuln) : String :=
  strLower (v.summary.getD "") ++ strLower (v.details.getD "")

/-- Lines 80-83: each member of the critical keyword set found in the
description counts once.  The Python set iteration order does not matter
because the contributions are summed. -/
def keywordMatches (description : String) : Nat :=
  criticalKeywords.countP (fun k => substrIn k description)

/-- Lines 89-94. -/
def cryptoTermHit (description : String) : Bool :=
  cryptoTerms.any (fun k => substrIn k description)

/-- Lines 96-103: each affected entry with a truthy ecosystem_specific
dictionary whose affects_security value is truthy counts once.  The guard
if affected at line 98 is the identity on the count, because an empty list
contributes nothing. -/
def affectedSecurityCount (affected : List AffectedEntry) : Nat :=
  affected.countP (fun e =>
    match e.ecosystem_specific with
    | some es => es.affects_security
    | none => false)

/-- Lines 58-103 of _determine_severity: the accumulated numeric severity
score.  Addition order follows the source; the result is the same sum. -/
def severityScore (v : Vuln) (packageName : String) : ℚ :=
  cvssContribution v.database_specific
    + 2 * (keywordMatches (descriptionOf v) : ℚ)
    + (if strLower packageName ∈ securityCriticalPackages then 1 else 0)
    + (if cryptoTermHit (descriptionOf v) then 3 / 2 else 0)
    + 2 * (affectedSecurityCount (v.affected.getD []) : ℚ)

/-- Lines 105-112: the final score-to-bucket mapping. -/
def classify (severity_score : ℚ) : String :=
  if severity_score ≥ 9 then "CRITICAL"
  else if severity_score ≥ 7 then "HIGH"
  else if severity_score ≥ 4 then "MEDIUM"
  else "LOW"

/-- The whole of _determine_severity. -/
def determineSeverity (v : Vuln) (packageName : String) : String :=
  classify (severityScore v packageName)

/-- The severity_order dictionary of line 157, totalized: the sort key lookup
on line 159 is only ever applied to outputs of _determine_severity, which are
among the four keys, so the default branch is never exercised. -/
def severityOrderD (s : String) : Nat :=
  if s = "CRITICAL" then 0
  else if s = "HIGH" then 1
  else if s = "MEDIUM" then 2
  else if s = "LOW" then 3
  else 4

/-- Concatenation of the per-element lists, in element order; used to model
the nested appending loops of lines 131-137. -/
def listConcatMap {α β : Type} (f : α → List β) : List α → List β
  | [] => []
  | a :: as => f a ++ listConcatMap f as

/-- Lines 130-137: every fixed version announced in an ECOSYSTEM-typed range
event, in loop order.  An absent affected key defaults to the empty list. -/
def fixedVersions (v : Vuln) : List String :=
  listConcatMap
    (fun a =>
      listConcatMap
        (fun r =>
          if r.rtype = some "ECOSYSTEM" then r.events.filterMap (fun e => e.fixed) else [])
        a.ranges)
    (v.affected.getD [])

/-- Line 149: vuln.get("affected", [{}])[0].get("ecosystem_specific", {}).
When the affected key is absent the default singleton list of one empty
record yields the empty dictionary; when the key is present with an empty
list the subscript [0] raises IndexError, modelled as the outer none. -/
def ecoSpecOfFirst (v : Vuln) : Option (Option EcoSpec) :=
  match v.affected with
  | none => some none
  | some [] => none
  | some (a :: _) => some a.ecosystem_specific

/-- The vuln_info dictionary of lines 140-152. -/
structure VulnInfo where
  id : String
  severity : String
  summary : String
  details : String
  fixed_versions : List String
  references : List String
  published : String
  modified : String
  ecosystem_specific : Option EcoSpec
deriving DecidableEq

/-- One iteration of the processing loop (lines 126-154) for a single raw
vulnerability: none models the IndexError raised at line 149 when the
affected key holds an empty list. -/
def buildVulnInfo (packageName : String) (v : Vuln) : Option VulnInfo :=
  match ecoSpecOfFirst v with
  | none => none
  | some es =>
    some
      { id := v.id.getD "Unknown"
        severity := determineSeverity v packageName
        summary := v.summary.getD "No description available"
        details := v.details.getD ""
        fixed_versions := fixedVersions v
        references := v.references.getD []
        published := v.published.getD "Unknown"
        modified := v.modified.getD "Unknown"
        ecosystem_specific := es }

/-- The processing loop over the input list, in input order; a raised
IndexError aborts the whole call, hence the Option. -/
def buildInfos (packageName : String) : List Vuln → Option (List VulnInfo)
  | [] => some []
  | v :: rest =>
    match buildVulnInfo packageName v, buildInfos packageName rest with
    | some i, some is => some (i :: is)
    | _, _ => none

/-- The dictionary literal of line 122, as an association list in its
insertion order. -/
def initCounts : List (String × Nat) :=
  [("CRITICAL", 0), ("HIGH", 0), ("MEDIUM", 0), ("LOW", 0)]

/-- The increment of line 128 on an association list.  The incremented key is
always an output of _determine_severity and hence present, so the mapping
form agrees with the Python subscript update. -/
def incrKey (k : String) (l : List (String × Nat)) : List (String × Nat) :=
  l.map (fun p => if p.1 = k then (p.1, p.2 + 1) else p)

/-- Insertion step of a stable sort on the line 157 severity rank: an element
is placed after every element of strictly smaller rank and before the first
element of greater or equal rank. -/
def insertBySev (x : VulnInfo) : List VulnInfo → List VulnInfo
  | [] => [x]
  | y :: ys =>
    if severityOrderD y.severity < severityOrderD x.severity then y :: insertBySev x ys
    else x :: y :: ys

/-- Model of the stable list.sort call of lines 158-160.  Python list.sort is
a stable sort by the given key, and a stable sort by a fixed key is unique,
so insertion sort with strict-less insertion is extensionally the same
function. -/
def sortBySev : List VulnInfo → List VulnInfo
  | [] => []
  | x :: xs => insertBySev x (sortBySev xs)

/-- The processed_data dictionary returned by _process_vulnerabilities. -/
structure SecurityReport where
  total_vulnerabilities : Nat
  severity_counts : List (String × Nat)
  vulnerabilities : List VulnInfo
deriving DecidableEq

/-- The whole of _process_vulnerabilities (lines 114-162).  The severity
counters are accumulated left to right exactly as the loop does. -/
def processVulnerabilities (packageName : String) (vulns : List Vuln) :
    Option SecurityReport :=
  match buildInfos packageName vulns with
  | none => none
  | some infos =>
    some
      { total_vulnerabilities := vulns.length
        severity_counts := infos.foldl (fun c i => incrKey i.severity c) initCounts
        vulnerabilities := sortBySev infos }

/-- The ordering relation induced by the line 157 rank table. -/
def sevLE (a b : VulnInfo) : Prop :=
  severityOrderD a.severity ≤ severityOrderD b.severity

/-! ## MetadataFetcher (src/package_analyzer/scraper.py)

The parsed PyPI project page handed to the extraction helpers is modelled by
the elements they look up: each Option.none stands for markup that the
BeautifulSoup find call does not locate. -/

structure ReleaseCard where
  version : Option String
deriving DecidableEq

structure StatRow where
  sname : Option String
  svalue : Option String
deriving DecidableEq

structure PyPISoup where
  pip_instructions : Option String
  release_cards : List ReleaseCard
  stats_panel : Option (List StatRow)
  maintainers_div : Option (List String)
deriving DecidableEq

/-- Lines 70-73 of _extract_installation_guide.  When the expected span is
absent the source returns the literal string "pip install {package_name}":
the f-prefix is missing, so the braces are not interpolated. -/
def extractInstallationGuide (soup : PyPISoup) : String :=
  match soup.pip_instructions with
  | some t => strTrim t
  | none => "pip install {package_name}"

/-- Lines 76-84: the first five release cards that carry a version element,
each stripped. -/
def extractLatestReleases (soup : PyPISoup) : List String :=
  (soup.release_cards.take 5).filterMap (fun c => c.version.map strTrim)

/-- Lines 87-97: rows of the stats panel that carry both a name and a value
element; an absent panel yields the empty mapping. -/
def extractProjectStats (soup : PyPISoup) : List (String × String) :=
  match soup.stats_panel with
  | none => []
  | some rows =>
    rows.filterMap (fun r =>
      match r.sname, r.svalue with
      | some n, some v => some (strTrim n, strTrim v)
      | _, _ => none)

structure CommunityInfo where
  maintainers : List String
deriving DecidableEq

/-- Lines 100-114: the maintainers list, empty when the div is absent. -/
def extractCommunityInfo (soup : PyPISoup) : CommunityInfo :=
  { maintainers :=
      match soup.maintainers_div with
      | none => []
      | some ms => ms.map strTrim }

/-- The dictionary returned by _scrape_pypi_page (lines 62-67) once the page
response has parsed; the function is total in the parsed page. -/
structure ScrapedData where
  installation_guide : String
  latest_releases : List String
  project_stats : List (String × String)
  community_info : CommunityInfo
deriving DecidableEq

def scrapePyPIPage (soup : PyPISoup) : ScrapedData :=
  { installation_guide := extractInstallationGuide soup
    latest_releases := extractLatestReleases soup
    project_stats := extractProjectStats soup
    community_info := extractCommunityInfo soup }

/-- Lines 54-56: the project page URL, version-scoped when a truthy version
is supplied. -/
def pageUrl (packageName : String) (version : Option String) : String :=
  let u := "https://pypi.org/project/" ++ packageName
  match version with
  | some v => if v = "" then u else u ++ "/" ++ v
  | none => u

/-- The info section of the registry JSON payload (interface section 6 of the
spec): the version field is always present, since lines 39 and 122 subscript
it without a default; the other fields use get defaults. -/
structure ApiInfo where
  version : String
  author : Option String
  license : Option String
  summary : Option String
  home_page : Option String
  docs_url : Option String
  requires_python : Option String
  requires_dist : Option (List String)
deriving DecidableEq

/-- The registry JSON payload: info plus the releases mapping (version to
release-file list, the files kept opaque). -/
structure ApiData where
  info : ApiInfo
  releases : List (String × List String)
deriving DecidableEq

/-- Line 31: the URL requested by _fetch_api_data.  The f-string names only
the package, never the version, although the function receives one. -/
def apiUrl (packageName : String) (version : Option String) : String :=
  "https://pypi.org/pypi/" ++ packageName ++ "/json"

/-- Lines 117-128 of _extract_dependencies.  Lines 119-123 select a
release_data value that no later line reads; it is kept here as a dead
binding.  The returned list reduces each truthy requirement string to the
part before its first semicolon, stripped. -/
def extractDependencies (data : ApiData) (version : Option String) : List String :=
  let truthyVersion : Option String :=
    match version with
    | some v => if v = "" then none else some v
    | none => none
  let _release_data : List String :=
    match truthyVersion with
    | some v =>
      if (data.releases.lookup v).isSome then (data.releases.lookup v).getD []
      else (data.releases.lookup data.info.version).getD []
    | none => (data.releases.lookup data.info.version).getD []
  match data.info.requires_dist with
  | none => []
  | some rd =>
    if rd = [] then []
    else (rd.filter (fun d => d ≠ "")).map (fun dep => strTrim (beforeChar ';' dep))

/-- The record returned by _fetch_api_data (lines 36-47). -/
structure ApiRecord where
  name : String
  version : String
  author : String
  license : String
  description : String
  homepage : String
  documentation : String
  requires_python : String
  dependencies : List String
deriving DecidableEq

/-- Lines 29-47: version or info["version"] picks the argument only when it
is truthy. -/
def fetchApiData (packageName : String) (version : Option String) (data : ApiData) :
    ApiRecord :=
  { name := packageName
    version :=
      match version with
      | some v => if v = "" then data.info.version else v
      | none => data.info.version
    author := data.info.author.getD "Unknown"
    license := data.info.license.getD "Not specified"
    description := data.info.summary.getD "No description available"
    homepage := data.info.home_page.getD "Not available"
    documentation := data.info.docs_url.getD "Not available"
    requires_python := data.info.requires_python.getD "Not specified"
    dependencies := extractDependencies data version }

/-! ## IssueTracker (src/package_analyzer/issue_tracker.py)

The PyPI response is modelled as the project_urls mapping it carries (an
association list whose values may be JSON null), with none for a request or
parse failure, which _get_repo_from_pypi catches and turns into the empty
dictionary. -/

structure RepoInfo where
  name : String
  url : String
  source : String
deriving DecidableEq

/-- Python str.strip("/"): slashes removed from both ends. -/
def stripSlashes (s : String) : String :=
  String.mk (((s.toList.dropWhile (fun c => c = '/')).reverse.dropWhile
    (fun c => c = '/')).reverse)

/-- Lines 50-57: the first project URL that is truthy and whose lowercase
form contains github.com. -/
def findGithubUrl : List (String × Option String) → Option String
  | [] => none
  | (_, u) :: rest =>
    match u with
    | some s =>
      if s = "" then findGithubUrl rest
      else if substrIn "github.com" (strLower s) then some s
      else findGithubUrl rest
    | none => findGithubUrl rest

/-- The whole of _get_repo_from_pypi (lines 39-62): none models the empty
dictionary returned both on lookup failure and when no URL matches. -/
def getRepoFromPyPI (packageName : String)
    (resp : Option (List (String × Option String))) : Option RepoInfo :=
  match resp with
  | none => none
  | some project_urls =>
    match findGithubUrl project_urls with
    | some u =>
      some { name := packageName, url := stripSlashes u, source := "PyPI project_urls" }
    | none => none

structure RepoStats where
  open_issues : Nat
  pull_requests : Nat
deriving DecidableEq

structure IssueEntry where
  title : String
  url : String
  comments : String
deriving DecidableEq

/-- The success record of analyze_issues (lines 32-37). -/
structure IssueAnalysis where
  repository : RepoInfo
  summary : RepoStats
  recent_issues : List IssueEntry
  top_issues : List IssueEntry
deriving DecidableEq

/-- The two shapes of dictionary analyze_issues can return: the error record
of line 26 or the success record of lines 32-37. -/
inductive IssueResult where
  | errorRecord (msg : String)
  | analysis (a : IssueAnalysis)
deriving DecidableEq

/-- A raised Python exception. -/
inductive PyErr where
  | attributeError (attr : String)
deriving DecidableEq

/-- The three GitHub scraping helpers (_get_repo_stats, _get_recent_issues,
_get_top_issues) abstracted as oracles from the repository URL to their
already fault-tolerant results. -/
structure GitHubOracle where
  stats : String → RepoStats
  recent : String → List IssueEntry
  top : String → List IssueEntry

/-- Lines 19-37 of analyze_issues.  When _get_repo_from_pypi yields the empty
dictionary, line 23 evaluates self._search_github_repo; no method of that
name is defined anywhere in the repository, so Python attribute lookup raises
AttributeError before anything else can run.  In particular the error-record
return of lines 25-26 (constructor errorRecord) is unreachable. -/
def analyzeIssues (packageName : String)
    (pypi : Option (List (String × Option String))) (gh : GitHubOracle) :
    Except PyErr IssueResult :=
  match getRepoFromPyPI packageName pypi with
  | some repo =>
    Except.ok (IssueResult.analysis
      { repository := repo
        summary := gh.stats repo.url
        recent_issues := gh.recent repo.url
        top_issues := gh.top repo.url })
  | none => Except.error (PyErr.attributeError "_search_github_repo")

/-! ## Dependency graph builder (src/package_analyzer/visualizer.py)

The registry is a function from package name to the payload of
fetch_package_info, with none for a raised RequestException.  The graph
state carries the visited set and the node and edge statements emitted so
far (most recent first), plus an instrumentation list recording each entry
into the expansion branch as the pair (package, current_depth); it is not
part of the Python state and no other field depends on it. -/

structure VInfo where
  version : Option String
  requires_dist : Option (List String)
deriving DecidableEq

structure GNode where
  name : String
  label : String
  gray : Bool
deriving DecidableEq

structure St where
  visited : List String
  nodes : List GNode
  edges : List (String × String)
  expansions : List (String × Nat)
deriving DecidableEq

/-- Line 49: dep.split(" ")[0].split(";")[0].strip().  Note the rule differs
from the scraper one (semicolon only). -/
def extractDepName (dep : String) : String :=
  strTrim (beforeChar ';' (beforeChar ' ' dep))

mutual

/-- Lines 32-58 of add_dependencies.  The guard of line 33 returns
unchanged at depth at least max_depth or for an already visited name; an
expansion (lines 36-58) marks the name visited, records the expansion, and
either emits the gray fallback node on lookup failure (lines 56-58) or emits
the labeled node and walks the declared dependencies (lines 43-54).
Termination is by the measure max_depth - depth, which the depth guard makes
strictly decrease at every recursive call, exactly the termination argument
of the source. -/
def addDeps (reg : String → Option VInfo) (maxD : Nat) (pkg : String)
    (depth : Nat) (st : St) : St :=
  if h : maxD ≤ depth ∨ pkg ∈ st.visited then st
  else
    let st1 : St :=
      { st with visited := pkg :: st.visited, expansions := (pkg, depth) :: st.expansions }
    match reg pkg with
    | none => { st1 with nodes := { name := pkg, label := pkg, gray := true } :: st1.nodes }
    | some info =>
      let st2 : St :=
        { st1 with
          nodes :=
            { name := pkg, label := pkg ++ "\n" ++ info.version.getD "unknown", gray := false }
              :: st1.nodes }
      goDeps reg maxD pkg (depth + 1) (info.requires_dist.getD []) st2
termination_by (maxD - depth, 0)

/-- Lines 45-54: the loop over requires_dist.  Each truthy requirement with a
truthy extracted name gets an edge from the current package, and an unvisited
name is recursed into at the incremented depth (carried here as cdepth). -/
def goDeps (reg : String → Option VInfo) (maxD : Nat) (pkg : String)
    (cdepth : Nat) (deps : List String) (st : St) : St :=
  match deps with
  | [] => st
  | dep :: rest =>
    let st2 : St :=
      if dep = "" then st
      else
        let depName := extractDepName dep
        if depName = "" then st
        else
          let st3 : St := { st with edges := (pkg, depName) :: st.edges }
          if depName ∈ st3.visited then st3
          else addDeps reg maxD depName cdepth st3
    goDeps reg maxD pkg cdepth rest st2
termination_by (maxD - cdepth, deps.length + 1)

end

/-- Lines 25-61 of create_dependency_graph: empty state, root expanded at
depth 0. -/
def buildGraph (reg : String → Option VInfo) (maxD : Nat) (root : String) : St :=
  addDeps reg maxD root 0 { visited := [], nodes := [], edges := [], expansions := [] }

/-- The construction invariant: every recorded expansion is of a visited name
at a depth below the bound, expansion names are pairwise distinct, every
emitted edge starts at a name whose registry lookup succeeded, and nodes are
emitted one per expansion. -/
def GoodSt (reg : String → Option VInfo) (maxD : Nat) (st : St) : Prop :=
  (∀ p ∈ st.expansions, p.1 ∈ st.visited ∧ p.2 < maxD) ∧
    (st.expansions.map Prod.fst).Nodup ∧
    (∀ e ∈ st.edges, (reg e.1).isSome) ∧
    st.nodes.length = st.expansions.length

/-! ## Concrete inputs used by the example theorems and witnesses -/

/-- A vulnerability carrying exactly the three scoring signals of the spec
example: cvss_score "9.8", a summary containing remote code execution (which
matches no other keyword), and nothing else. -/
def v6 : Vuln :=
  { id := some "OSV-2024-1"
    summary := some "remote code execution"
    details := none
    database_specific := some { cvss_score := some "9.8" }
    affected := none
    references := none
    published := none
    modified := none }

/-- A vulnerability with no fields at all. -/
def vLow : Vuln :=
  { id := none, summary := none, details := none, database_specific := none,
    affected := none, references := none, published := none, modified := none }

/-- A two-package registry with a dependency cycle: A requires B and B
requires A. -/
def regAB : String → Option VInfo := fun n =>
  if n = "A" then some { version := some "1.0", requires_dist := some ["B"] }
  else if n = "B" then some { version := some "2.0", requires_dist := some ["A"] }
  else none

/-- A registry where every lookup fails. -/
def regFail : String → Option VInfo := fun _ => none

/-- A registry where A resolves and requires C, whose lookup fails. -/
def regAC : String → Option VInfo := fun n =>
  if n = "A" then some { version := some "1.0", requires_dist := some ["C"] }
  else none

/-- A parsed project page in which every expected markup element is absent. -/
def emptySoup : PyPISoup :=
  { pip_instructions := none, release_cards := [], stats_panel := none,
    maintainers_div := none }

/-- A project_urls mapping without any GitHub URL. -/
def noGithubUrls : List (String × Option String) :=
  [("Homepage", some "https://example.org/proj"), ("Docs", none)]

/-- Oracle standing in for the three GitHub scrapers; never reached in the
failing scenario. -/
def trivialOracle : GitHubOracle :=
  { stats := fun _ => { open_issues := 0, pull_requests := 0 },
    recent := fun _ => [], top := fun _ => [] }

/-- The four severity strings, in the order of the dictionary literals at
lines 122 and 157. -/
def fourKeys : List String :=
  ["CRITICAL", "HIGH", "MEDIUM", "LOW"]

/-- The processed record of v6 for package cryptography. -/
def info6 : VulnInfo :=
  { id := "OSV-2024-1", severity := "CRITICAL", summary := "remote code execution",
    details := "", fixed_versions := [], references := [], published := "Unknown",
    modified := "Unknown", ecosystem_specific := none }

/-- The processed record of vLow for package cryptography: the only signal is
the security-critical package name, so the score is 1 and the bucket LOW. -/
def infoLow : VulnInfo :=
  { id := "Unknown", severity := "LOW", summary := "No description available",
    details := "", fixed_versions := [], references := [], published := "Unknown",
    modified := "Unknown", ecosystem_specific := none }

/-- The report produced for the two-vulnerability example input. -/
def rEx : SecurityReport :=
  { total_vulnerabilities := 2,
    severity_counts := [("CRITICAL", 1), ("HIGH", 0), ("MEDIUM", 0), ("LOW", 1)],
    vulnerabilities := [info6, infoLow] }

/-- The report produced for the empty input list. -/
def rEmpty : SecurityReport :=
  { total_vulnerabilities := 0, severity_counts := initCounts, vulnerabilities := [] }

/-! ## Theorems -/

/-- The rank of the bucket assigned to a score, as a step function. -/
theorem severityOrderD_classify (s : ℚ) :
    severityOrderD (classify s) =
      if s ≥ 9 then 0 else if s ≥ 7 then 1 else if s ≥ 4 then 2 else 3 := by
  unfold classify
  split_ifs with h1 h2 h3 <;> simp [severityOrderD, h1]

/-- C1: the severity bucket is a pure, monotonic step function of the
accumulated score: CRITICAL iff the score is at least 9, HIGH iff it is in
[7, 9), MEDIUM iff it is in [4, 7), LOW iff it is below 4, and a larger
score never gets a strictly less severe bucket. -/
theorem classify_step_function (s : ℚ) :
    (classify s = "CRITICAL" ↔ 9 ≤ s) ∧
    (classify s = "HIGH" ↔ 7 ≤ s ∧ s < 9) ∧
    (classify s = "MEDIUM" ↔ 4 ≤ s ∧ s < 7) ∧
    (classify s = "LOW" ↔ s < 4) ∧
    (∀ t : ℚ, s ≤ t → severityOrderD (classify t) ≤ severityOrderD (classify s)) := by
  refine ⟨?_, ?_, ?_, ?_, ?_⟩
  · unfold classify; split_ifs with h1 h2 h3 <;> simp <;>
      first | exact ⟨by linarith, by linarith⟩ | linarith | (intros; linarith)
  · unfold classify; split_ifs with h1 h2 h3 <;> simp <;>
      first | exact ⟨by linarith, by linarith⟩ | linarith | (intros; linarith)
  · unfold classify; split_ifs with h1 h2 h3 <;> simp <;>
      first | exact ⟨by linarith, by linarith⟩ | linarith | (intros; linarith)
  · unfold classify; split_ifs with h1 h2 h3 <;> simp <;>
      first | exact ⟨by linarith, by linarith⟩ | linarith | (intros; linarith)
  · intro t hst
    rw [severityOrderD_classify, severityOrderD_classify]
    split_ifs <;> first | omega | (exfalso; linarith)

/-- Witness: the theorem applied at scores 8 and 12. -/
theorem classify_step_function_witness :
    severityOrderD (classify 12) ≤ severityOrderD (classify 8) :=
  (classify_step_function 8).2.2.2.2 12 (by norm_num)

/-- The exact float() value of the string 9.8, as a rational. -/
theorem parsedToRat_98 : parsedToRat (98, 10) = 49 / 5 := by
  unfold parsedToRat
  norm_num

/-- The score of the spec example vulnerability: shared evaluation lemma. -/
theorem severityScore_v6 : severityScore v6 "cryptography" = 64 / 5 := by
  have h1 : cvssContribution v6.database_specific = parsedToRat (98, 10) := rfl
  have h2 : keywordMatches (descriptionOf v6) = 1 := rfl
  have h3 : cryptoTermHit (descriptionOf v6) = false := rfl
  have h4 : affectedSecurityCount (v6.affected.getD []) = 0 := rfl
  have h5 : strLower "cryptography" ∈ securityCriticalPackages := by decide
  unfold severityScore
  rw [h1, h2, h3, h4, parsedToRat_98, if_pos h5]
  norm_num

/-- C6: a vulnerability whose database_specific.cvss_score is the string
9.8, whose summary contains remote code execution and matches no other
scoring signal, analysed for the security-critical package cryptography,
accumulates the score 9.8 + 2 + 1 = 12.8 and is classified CRITICAL. -/
theorem v6_score_and_severity :
    severityScore v6 "cryptography" = 64 / 5 ∧
    determineSeverity v6 "cryptography" = "CRITICAL" := by
  refine ⟨severityScore_v6, ?_⟩
  unfold determineSeverity
  rw [severityScore_v6]
  unfold classify
  rw [if_pos (by norm_num : (64 : ℚ) / 5 ≥ 9)]

/-- Membership in an insertion step. -/
theorem mem_insertBySev {x a : VulnInfo} :
    ∀ {l : List VulnInfo}, a ∈ insertBySev x l ↔ a = x ∨ a ∈ l := by
  intro l
  induction l with
  | nil => simp [insertBySev]
  | cons y ys ih =>
    rw [insertBySev]
    split_ifs with hlt
    · simp only [List.mem_cons, ih]
      tauto
    · simp only [List.mem_cons]

/-- Insertion preserves sortedness by severity rank. -/
theorem pairwise_insertBySev (x : VulnInfo) :
    ∀ l : List VulnInfo, l.Pairwise sevLE → (insertBySev x l).Pairwise sevLE := by
  intro l
  induction l with
  | nil => intro _; simp [insertBySev, sevLE]
  | cons y ys ih =>
    intro hp
    rw [List.pairwise_cons] at hp
    rw [insertBySev]
    split_ifs with hlt
    · rw [List.pairwise_cons]
      refine ⟨?_, ih hp.2⟩
      intro a ha
      rcases mem_insertBySev.mp ha with rfl | ha
      · exact le_of_lt hlt
      · exact hp.1 a ha
    · rw [List.pairwise_cons]
      refine ⟨?_, List.pairwise_cons.mpr hp⟩
      intro a ha
      rcases List.mem_cons.mp ha with rfl | ha
      · exact not_lt.mp hlt
      · exact le_trans (not_lt.mp hlt) (hp.1 a ha)

/-- The modelled sort is sorted: severity ranks are non-decreasing. -/
theorem sortBySev_pairwise : ∀ l : List VulnInfo, (sortBySev l).Pairwise sevLE := by
  intro l
  induction l with
  | nil => simp [sortBySev]
  | cons x xs ih => exact pairwise_insertBySev x _ ih

/-- Insertion is invisible to a same-severity filter: the inserted element
passes exactly the elements of strictly smaller rank, none of which can have
the same severity. -/
theorem filter_insertBySev (sev : String) (x : VulnInfo) :
    ∀ l : List VulnInfo,
      (insertBySev x l).filter (fun v => v.severity == sev) =
        (x :: l).filter (fun v => v.severity == sev) := by
  intro l
  induction l with
  | nil => rfl
  | cons y ys ih =>
    rw [insertBySev]
    split_ifs with hlt
    · cases hy : (y.severity == sev) with
      | true =>
        cases hx : (x.severity == sev) with
        | true =>
          exfalso
          have h1 : y.severity = sev := by simpa using hy
          have h2 : x.severity = sev := by simpa using hx
          rw [h1, h2] at hlt
          exact lt_irrefl _ hlt
        | false =>
          simp only [List.filter_cons, hy, hx] at *
          simpa [hx] using ih
      | false =>
        simp only [List.filter_cons, hy] at *
        simpa using ih
    · rfl

/-- The modelled sort is stable in filter form: for any severity value,
filtering the sorted list gives exactly the filtered input, in input
order. -/
theorem filter_sortBySev (sev : String) :
    ∀ l : List VulnInfo,
      (sortBySev l).filter (fun v => v.severity == sev) =
        l.filter (fun v => v.severity == sev) := by
  intro l
  induction l with
  | nil => rfl
  | cons x xs ih =>
    rw [sortBySev, filter_insertBySev]
    simp only [List.filter_cons]
    rw [ih]

/-- Evaluation of the bucket for the score of v6: shared helper. -/
theorem determineSeverity_v6_eval : determineSeverity v6 "cryptography" = "CRITICAL" := by
  unfold determineSeverity
  rw [severityScore_v6]
  unfold classify
  rw [if_pos (by norm_num : (64 : ℚ) / 5 ≥ 9)]

/-- The score of the empty vulnerability for package cryptography. -/
theorem severityScore_vLow : severityScore vLow "cryptography" = 1 := by
  have h1 : cvssContribution vLow.database_specific = 0 := rfl
  have h2 : keywordMatches (descriptionOf vLow) = 0 := rfl
  have h3 : cryptoTermHit (descriptionOf vLow) = false := rfl
  have h4 : affectedSecurityCount (vLow.affected.getD []) = 0 := rfl
  have h5 : strLower "cryptography" ∈ securityCriticalPackages := by decide
  unfold severityScore
  rw [h1, h2, h3, h4, if_pos h5]
  norm_num

/-- Evaluation of the bucket for the score of vLow: shared helper. -/
theorem determineSeverity_vLow_eval : determineSeverity vLow "cryptography" = "LOW" := by
  unfold determineSeverity
  rw [severityScore_vLow]
  unfold classify
  rw [if_neg (by norm_num : ¬((1 : ℚ) ≥ 9)), if_neg (by norm_num : ¬((1 : ℚ) ≥ 7)),
    if_neg (by norm_num : ¬((1 : ℚ) ≥ 4))]

/-- The processing step on v6. -/
theorem buildVulnInfo_v6 : buildVulnInfo "cryptography" v6 = some info6 := by
  have h : buildVulnInfo "cryptography" v6 =
      some { info6 with severity := determineSeverity v6 "cryptography" } := rfl
  rw [h, determineSeverity_v6_eval]
  rfl

/-- The processing step on vLow. -/
theorem buildVulnInfo_vLow : buildVulnInfo "cryptography" vLow = some infoLow := by
  have h : buildVulnInfo "cryptography" vLow =
      some { infoLow with severity := determineSeverity vLow "cryptography" } := rfl
  rw [h, determineSeverity_vLow_eval]
  rfl

/-- The processing loop on the two-vulnerability example input. -/
theorem buildInfos_ex : buildInfos "cryptography" [v6, vLow] = some [info6, infoLow] := by
  simp [buildInfos, buildVulnInfo_v6, buildVulnInfo_vLow]

/-- The whole report for the two-vulnerability example input. -/
theorem processVulns_ex : processVulnerabilities "cryptography" [v6, vLow] = some rEx := by
  unfold processVulnerabilities
  rw [buildInfos_ex]
  simp only [List.foldl_cons, List.foldl_nil]
  rw [show incrKey infoLow.severity (incrKey info6.severity initCounts) =
      [("CRITICAL", 1), ("HIGH", 0), ("MEDIUM", 0), ("LOW", 1)] from by decide]
  rw [show sortBySev [info6, infoLow] = [info6, infoLow] from by
    rw [sortBySev, sortBySev, sortBySev, insertBySev, insertBySev]
    rw [if_neg (by decide : ¬(severityOrderD infoLow.severity < severityOrderD info6.severity))]]
  rfl

/-- C2: the vulnerabilities list of any report produced by
_process_vulnerabilities is sorted by severity rank in non-decreasing order
(CRITICAL, then HIGH, then MEDIUM, then LOW), and filtering the output by any
severity value returns exactly the same-severity records of the processed
input, in input order: equal-severity entries keep their relative input
order (stability). -/
theorem processVulnerabilities_sorted_stable (packageName : String)
    (vulns : List Vuln) (r : SecurityReport)
    (h : processVulnerabilities packageName vulns = some r) :
    r.vulnerabilities.Pairwise sevLE ∧
    ∀ infos, buildInfos packageName vulns = some infos →
      ∀ sev, r.vulnerabilities.filter (fun v => v.severity == sev) =
        infos.filter (fun v => v.severity == sev) := by
  unfold processVulnerabilities at h
  cases hb : buildInfos packageName vulns with
  | none => rw [hb] at h; exact absurd h (by simp)
  | some infos0 =>
    rw [hb] at h
    simp only [Option.some.injEq] at h
    subst h
    refine ⟨sortBySev_pairwise infos0, ?_⟩
    intro infos hinf sev
    simp only [Option.some.injEq] at hinf
    subst hinf
    exact filter_sortBySev sev infos0

/-- Witness: the sorted-and-stable theorem applied to the concrete
two-vulnerability input. -/
theorem processVulnerabilities_sorted_stable_witness :
    rEx.vulnerabilities.Pairwise sevLE ∧
    rEx.vulnerabilities.filter (fun v => v.severity == "LOW") =
      [info6, infoLow].filter (fun v => v.severity == "LOW") := by
  have h := processVulnerabilities_sorted_stable "cryptography" [v6, vLow] rEx processVulns_ex
  exact ⟨h.1, h.2 [info6, infoLow] buildInfos_ex "LOW"⟩

/-- The increment of line 128 does not change the key list. -/
theorem incrKey_keys (k : String) :
    ∀ l : List (String × Nat), (incrKey k l).map Prod.fst = l.map Prod.fst := by
  intro l
  induction l with
  | nil => rfl
  | cons p ps ih =>
    rw [incrKey] at *
    simp only [List.map_cons, List.map_map] at *
    split_ifs with hk <;> simp_all

/-- The increment of line 128 adds one per entry whose key matches. -/
theorem incrKey_sum (k : String) :
    ∀ l : List (String × Nat),
      ((incrKey k l).map Prod.snd).sum =
        (l.map Prod.snd).sum + l.countP (fun p => p.1 == k) := by
  intro l
  induction l with
  | nil => rfl
  | cons p ps ih =>
    have hcons : incrKey k (p :: ps) = (if p.1 = k then (p.1, p.2 + 1) else p) :: incrKey k ps :=
      rfl
    rw [hcons]
    by_cases hk : p.1 = k
    · have hb : (p.1 == k) = true := by simpa using hk
      rw [if_pos hk]
      simp only [List.map_cons, List.sum_cons, List.countP_cons, ih, hb, if_true]
      omega
    · have hb : (p.1 == k) = false := by simpa using hk
      rw [if_neg hk]
      simp only [List.map_cons, List.sum_cons, List.countP_cons, ih, hb,
        Bool.false_eq_true, if_false]
      omega

/-- A key among the four appears exactly once in the four-key list. -/
theorem countP_fourKeys (k : String) (hk : k ∈ fourKeys) :
    fourKeys.countP (fun s => s == k) = 1 := by
  simp only [fourKeys, List.mem_cons, List.not_mem_nil, or_false] at hk
  rcases hk with rfl | rfl | rfl | rfl <;> decide

/-- In a counter list whose keys are the four severities, a severity among
the four matches exactly one entry. -/
theorem countP_key_eq_one (k : String) (c : List (String × Nat))
    (hc : c.map Prod.fst = fourKeys) (hk : k ∈ fourKeys) :
    c.countP (fun p => p.1 == k) = 1 :=
  calc c.countP (fun p => p.1 == k)
      = (c.map Prod.fst).countP (fun s => s == k) :=
        (List.countP_map (fun s => s == k) Prod.fst c).symm
    _ = fourKeys.countP (fun s => s == k) := by rw [hc]
    _ = 1 := countP_fourKeys k hk

/-- The counting loop at lines 126-128: it preserves the key list and adds
the number of processed records to the running total, as long as every
severity is among the four keys. -/
theorem foldl_incr (infos : List VulnInfo) :
    ∀ c : List (String × Nat), (∀ i ∈ infos, i.severity ∈ fourKeys) →
      c.map Prod.fst = fourKeys →
      (infos.foldl (fun c i => incrKey i.severity c) c).map Prod.fst = fourKeys ∧
      ((infos.foldl (fun c i => incrKey i.severity c) c).map Prod.snd).sum =
        (c.map Prod.snd).sum + infos.length := by
  induction infos with
  | nil => intro c _ hc; exact ⟨hc, by simp⟩
  | cons i is ih =>
    intro c hmem hc
    have hky : (incrKey i.severity c).map Prod.fst = fourKeys := by
      rw [incrKey_keys]; exact hc
    have hsum : ((incrKey i.severity c).map Prod.snd).sum = (c.map Prod.snd).sum + 1 := by
      rw [incrKey_sum, countP_key_eq_one _ c hc (hmem i (by simp))]
    have hrec := ih (incrKey i.severity c) (fun j hj => hmem j (by simp [hj])) hky
    refine ⟨hrec.1, ?_⟩
    rw [List.foldl_cons, hrec.2, hsum]
    simp only [List.length_cons]
    omega

/-- Every bucket the classifier can assign is among the four keys. -/
theorem classify_mem_four (s : ℚ) : classify s ∈ fourKeys := by
  unfold classify
  split_ifs <;> simp [fourKeys]

/-- Every severity present in a processed list is among the four keys. -/
theorem buildInfos_sevs (packageName : String) :
    ∀ (vulns : List Vuln) (infos : List VulnInfo),
      buildInfos packageName vulns = some infos → ∀ i ∈ infos, i.severity ∈ fourKeys := by
  intro vulns
  induction vulns with
  | nil =>
    intro infos h
    simp only [buildInfos, Option.some.injEq] at h
    subst h
    simp
  | cons v vs ih =>
    intro infos h
    rw [buildInfos] at h
    cases hb : buildVulnInfo packageName v with
    | none => rw [hb] at h; exact absurd h (by simp)
    | some i0 =>
      cases hbs : buildInfos packageName vs with
      | none => rw [hb, hbs] at h; exact absurd h (by simp)
      | some is0 =>
        rw [hb, hbs] at h
        simp only [Option.some.injEq] at h
        subst h
        intro i hi
        rcases List.mem_cons.mp hi with rfl | hi2
        · unfold buildVulnInfo at hb
          cases hec : ecoSpecOfFirst v with
          | none => rw [hec] at hb; exact absurd hb (by simp)
          | some es =>
            rw [hec] at hb
            simp only [Option.some.injEq] at hb
            subst hb
            exact classify_mem_four _
        · exact ih is0 hbs i hi2

/-- The processing loop preserves the record count. -/
theorem buildInfos_length (packageName : String) :
    ∀ (vulns : List Vuln) (infos : List VulnInfo),
      buildInfos packageName vulns = some infos → infos.length = vulns.length := by
  intro vulns
  induction vulns with
  | nil =>
    intro infos h
    simp only [buildInfos, Option.some.injEq] at h
    subst h
    rfl
  | cons v vs ih =>
    intro infos h
    rw [buildInfos] at h
    cases hb : buildVulnInfo packageName v with
    | none => rw [hb] at h; exact absurd h (by simp)
    | some i0 =>
      cases hbs : buildInfos packageName vs with
      | none => rw [hb, hbs] at h; exact absurd h (by simp)
      | some is0 =>
        rw [hb, hbs] at h
        simp only [Option.some.injEq] at h
        subst h
        simp only [List.length_cons, ih is0 hbs]

/-- C3: any report returned by _process_vulnerabilities has a severity_counts
mapping whose keys are exactly CRITICAL, HIGH, MEDIUM, LOW (in that order),
whose values sum to total_vulnerabilities, which equals the length of the
input list. -/
theorem processVulnerabilities_counts (packageName : String) (vulns : List Vuln)
    (r : SecurityReport) (h : processVulnerabilities packageName vulns = some r) :
    r.severity_counts.map Prod.fst = fourKeys ∧
    (r.severity_counts.map Prod.snd).sum = r.total_vulnerabilities ∧
    r.total_vulnerabilities = vulns.length := by
  unfold processVulnerabilities at h
  cases hb : buildInfos packageName vulns with
  | none => rw [hb] at h; exact absurd h (by simp)
  | some infos =>
    rw [hb] at h
    simp only [Option.some.injEq] at h
    subst h
    have hinit : initCounts.map Prod.fst = fourKeys := by decide
    have hf := foldl_incr infos initCounts (buildInfos_sevs packageName vulns infos hb) hinit
    refine ⟨hf.1, ?_, rfl⟩
    rw [hf.2, buildInfos_length packageName vulns infos hb]
    simp [initCounts]

/-- Witness: the counts theorem applied to the empty input list. -/
theorem processVulnerabilities_counts_witness :
    rEmpty.severity_counts.map Prod.fst = fourKeys ∧
    (rEmpty.severity_counts.map Prod.snd).sum = rEmpty.total_vulnerabilities ∧
    rEmpty.total_vulnerabilities = ([] : List Vuln).length :=
  processVulnerabilities_counts "demo" [] rEmpty (by rfl)

/-- C5 counterexample: on a page with none of the expected markup, the
installation snippet does not degrade to the empty string; it degrades to
the literal placeholder text of line 73, whose braces are not interpolated
because the string lacks the f prefix. -/
theorem scrape_empty_markup_not_empty_string :
    (scrapePyPIPage emptySoup).installation_guide = "pip install {package_name}" ∧
    (scrapePyPIPage emptySoup).installation_guide ≠ "" := by
  constructor
  · rfl
  · intro h
    exact absurd h (by decide)

/-- C5 as amended: every page-sourced field whose expected markup is absent
degrades to its fallback value without failing the fetch: the literal
placeholder string for the installation snippet, the empty list for releases
and maintainers, and the empty mapping for project stats; _scrape_pypi_page
is total in the parsed page. -/
theorem scrape_degrades_fields (soup : PyPISoup) :
    (soup.pip_instructions = none →
      (scrapePyPIPage soup).installation_guide = "pip install {package_name}") ∧
    (soup.release_cards = [] → (scrapePyPIPage soup).latest_releases = []) ∧
    (soup.stats_panel = none → (scrapePyPIPage soup).project_stats = []) ∧
    (soup.maintainers_div = none →
      (scrapePyPIPage soup).community_info.maintainers = []) := by
  refine ⟨?_, ?_, ?_, ?_⟩
  · intro h
    simp [scrapePyPIPage, extractInstallationGuide, h]
  · intro h
    simp [scrapePyPIPage, extractLatestReleases, h]
  · intro h
    simp [scrapePyPIPage, extractProjectStats, h]
  · intro h
    simp [scrapePyPIPage, extractCommunityInfo, h]

/-- Witness: the degradation theorem applied to the all-absent page. -/
theorem scrape_degrades_fields_witness :
    (scrapePyPIPage emptySoup).installation_guide = "pip install {package_name}" ∧
    (scrapePyPIPage emptySoup).latest_releases = [] ∧
    (scrapePyPIPage emptySoup).project_stats = [] ∧
    (scrapePyPIPage emptySoup).community_info.maintainers = [] := by
  have h := scrape_degrades_fields emptySoup
  exact ⟨h.1 rfl, h.2.1 rfl, h.2.2.1 rfl, h.2.2.2 rfl⟩

/-- C10: the version argument is invisible to the registry API request and to
the extracted dependency list, and changes nothing in the record
_fetch_api_data returns except its reported version field: the request URL
never mentions the version, and the dependencies always come from the latest
requires_dist list because the release_data selected at lines 119-123 is
never read. -/
theorem fetchApiData_version_invariant (packageName : String)
    (version : Option String) (data : ApiData) :
    apiUrl packageName version = apiUrl packageName none ∧
    extractDependencies data version = extractDependencies data none ∧
    fetchApiData packageName version data =
      { fetchApiData packageName none data with
          version := (fetchApiData packageName version data).version } := by
  refine ⟨rfl, ?_, ?_⟩
  · cases version with
    | none => rfl
    | some v => rfl
  · cases version with
    | none => rfl
    | some v => rfl

/-- C4: when the PyPI metadata yields no GitHub URL, analyze_issues raises
AttributeError at the call self._search_github_repo(package_name), because
that method is defined nowhere in the repository; it does not return the
error record of line 26, which is unreachable. -/
theorem analyzeIssues_raises_attribute_error :
    analyzeIssues "demo-package" (some noGithubUrls) trivialOracle =
      Except.error (PyErr.attributeError "_search_github_repo") ∧
    ∀ r : IssueResult,
      analyzeIssues "demo-package" (some noGithubUrls) trivialOracle ≠ Except.ok r := by
  constructor
  · rfl
  · intro r h
    rw [show analyzeIssues "demo-package" (some noGithubUrls) trivialOracle =
        Except.error (PyErr.attributeError "_search_github_repo") from rfl] at h
    exact absurd h (by simp)

/-- Expanding a fresh name below the depth bound preserves the construction
invariant, whatever node is emitted for it. -/
theorem GoodSt.expand {reg : String → Option VInfo} {maxD : Nat} {st : St}
    (hg : GoodSt reg maxD st) (pkg : String) (depth : Nat) (n : GNode)
    (hd : depth < maxD) (hv : pkg ∉ st.visited) :
    GoodSt reg maxD
      { st with visited := pkg :: st.visited, nodes := n :: st.nodes,
                expansions := (pkg, depth) :: st.expansions } := by
  obtain ⟨h1, h2, h3, h4⟩ := hg
  refine ⟨?_, ?_, ?_, ?_⟩
  · intro p hp
    rcases List.mem_cons.mp hp with rfl | hp2
    · exact ⟨List.mem_cons_self _ _, hd⟩
    · exact ⟨List.mem_cons_of_mem _ (h1 p hp2).1, (h1 p hp2).2⟩
  · simp only [List.map_cons]
    refine List.nodup_cons.mpr ⟨?_, h2⟩
    intro hmem
    rcases List.mem_map.mp hmem with ⟨p, hp, hfst⟩
    exact hv (hfst ▸ (h1 p hp).1)
  · exact h3
  · simp only [List.length_cons, h4]

/-- Adding an edge whose source has a resolvable registry record preserves
the construction invariant. -/
theorem GoodSt.addEdge {reg : String → Option VInfo} {maxD : Nat} {st : St}
    (hg : GoodSt reg maxD st) (pkg d : String) (hs : (reg pkg).isSome) :
    GoodSt reg maxD { st with edges := (pkg, d) :: st.edges } := by
  obtain ⟨h1, h2, h3, h4⟩ := hg
  refine ⟨h1, h2, ?_, h4⟩
  intro e he
  rcases List.mem_cons.mp he with rfl | he2
  · exact hs
  · exact h3 e he2

/-- The expansion step on a name whose registry lookup fails: the gray node
of lines 56-58 is emitted, no edge is added, and nothing else happens. -/
theorem addDeps_none_eq (reg : String → Option VInfo) (maxD : Nat) (pkg : String)
    (depth : Nat) (st : St) (hreg : reg pkg = none)
    (h : ¬(maxD ≤ depth ∨ pkg ∈ st.visited)) :
    addDeps reg maxD pkg depth st =
      { st with visited := pkg :: st.visited,
                nodes := { name := pkg, label := pkg, gray := true } :: st.nodes,
                expansions := (pkg, depth) :: st.expansions } := by
  rw [addDeps, dif_neg h]
  simp only [hreg]

/-- The construction invariant is preserved by every expansion call. -/
theorem addDeps_good (reg : String → Option VInfo) (maxD : Nat) :
    ∀ (pkg : String) (depth : Nat) (st : St),
      GoodSt reg maxD st → GoodSt reg maxD (addDeps reg maxD pkg depth st) := by
  refine addDeps.induct reg maxD
    (fun pkg depth st =>
      GoodSt reg maxD st → GoodSt reg maxD (addDeps reg maxD pkg depth st))
    (fun pkg cdepth deps st =>
      (reg pkg).isSome → GoodSt reg maxD st →
        GoodSt reg maxD (goDeps reg maxD pkg cdepth deps st))
    ?_ ?_ ?_ ?_ ?_
  · intro pkg depth st h hg
    rw [addDeps, dif_pos h]
    exact hg
  · intro pkg depth st h hreg hg
    rw [addDeps_none_eq reg maxD pkg depth st hreg h]
    have hd : depth < maxD := by
      rcases not_or.mp h with ⟨hle, _⟩
      omega
    exact hg.expand pkg depth _ hd (not_or.mp h).2
  · intro pkg depth st h
    dsimp only
    intro info hreg ih hg
    have hd : depth < maxD := by
      rcases not_or.mp h with ⟨hle, _⟩
      omega
    have he : addDeps reg maxD pkg depth st =
        goDeps reg maxD pkg (depth + 1) (info.requires_dist.getD [])
          { st with visited := pkg :: st.visited,
                    nodes := { name := pkg,
                               label := pkg ++ "\n" ++ info.version.getD "unknown",
                               gray := false } :: st.nodes,
                    expansions := (pkg, depth) :: st.expansions } := by
      rw [addDeps, dif_neg h]
      simp only [hreg]
    rw [he]
    refine ih (by rw [hreg]; rfl) ?_
    exact hg.expand pkg depth _ hd (not_or.mp h).2
  · intro pkg cdepth st _ hg
    rw [goDeps]
    exact hg
  · intro pkg cdepth st dep rest
    dsimp only
    intro ih1 ih2 ih3 ihrest hsome hg
    rw [goDeps]
    dsimp only
    apply ihrest hsome
    by_cases h1 : dep = ""
    · rw [dif_pos h1]
      exact hg
    · rw [dif_neg h1]
      by_cases h2 : extractDepName dep = ""
      · rw [dif_pos h2]
        exact hg
      · rw [dif_neg h2]
        have hg3 : GoodSt reg maxD
            { st with edges := (pkg, extractDepName dep) :: st.edges } :=
          hg.addEdge pkg (extractDepName dep) hsome
        by_cases h3 : extractDepName dep ∈ st.visited
        · rw [dif_pos h3]
          exact hg3
        · rw [dif_neg h3]
          exact ih1 hg3

/-- The empty starting state satisfies the invariant, hence so does the
result of the whole construction. -/
theorem buildGraph_good (reg : String → Option VInfo) (maxD : Nat) (root : String) :
    GoodSt reg maxD (buildGraph reg maxD root) := by
  apply addDeps_good
  refine ⟨?_, ?_, ?_, ?_⟩ <;> simp

/-- C7: during dependency-graph construction no package name is expanded
(marked visited, its registry record fetched, its dependencies walked) more
than once, however many paths reach it, and every expansion happens at a
recursion depth strictly below maxDepth, where the depth of a call is the
number of edges on the recursion path from the root. -/
theorem buildGraph_no_reexpansion_depth_bound (reg : String → Option VInfo)
    (maxD : Nat) (root : String) :
    ((buildGraph reg maxD root).expansions.map Prod.fst).Nodup ∧
    ∀ p ∈ (buildGraph reg maxD root).expansions, p.2 < maxD := by
  have hg := buildGraph_good reg maxD root
  exact ⟨hg.2.1, fun p hp => (hg.1 p hp).2⟩

/-- Evaluation of the construction on the cyclic two-package registry:
shared helper. -/
theorem buildGraph_regAB_eval :
    buildGraph regAB 5 "A" =
      { visited := ["B", "A"],
        nodes := [{ name := "B", label := "B\n2.0", gray := false },
                  { name := "A", label := "A\n1.0", gray := false }],
        edges := [("B", "A"), ("A", "B")],
        expansions := [("B", 1), ("A", 0)] } := by
  simp [buildGraph, addDeps, goDeps, regAB,
    show extractDepName "B" = "B" from rfl, show extractDepName "A" = "A" from rfl]

/-- Witness: the no-reexpansion theorem instantiated on the cyclic registry,
with the depth bound discharged at the concrete expansion of B. -/
theorem buildGraph_no_reexpansion_witness :
    ((buildGraph regAB 5 "A").expansions.map Prod.fst).Nodup ∧
    (("B", 1) : String × Nat).2 < 5 := by
  refine ⟨(buildGraph_no_reexpansion_depth_bound regAB 5 "A").1, ?_⟩
  refine (buildGraph_no_reexpansion_depth_bound regAB 5 "A").2 ("B", 1) ?_
  rw [buildGraph_regAB_eval]
  simp

/-- C8: construction terminates on cyclic dependency declarations; on the
registry where A requires B and B requires A it yields the explicit finite
graph below.  Termination for every input is the totality of addDeps itself,
whose well-founded recursion on maxDepth minus depth is accepted above; in
addition, every emitted graph is finite with exactly one node statement per
recorded expansion. -/
theorem cyclic_graph_terminates :
    buildGraph regAB 5 "A" =
      { visited := ["B", "A"],
        nodes := [{ name := "B", label := "B\n2.0", gray := false },
                  { name := "A", label := "A\n1.0", gray := false }],
        edges := [("B", "A"), ("A", "B")],
        expansions := [("B", 1), ("A", 0)] } ∧
    ∀ (reg : String → Option VInfo) (maxD : Nat) (root : String),
      (buildGraph reg maxD root).nodes.length =
        (buildGraph reg maxD root).expansions.length := by
  refine ⟨buildGraph_regAB_eval, ?_⟩
  intro reg maxD root
  exact (buildGraph_good reg maxD root).2.2.2

/-- C9: a node whose registry lookup fails is still added, as the gray
degraded node, with nothing else changed by its expansion (so recursion does
not proceed past it and the enclosing loop continues from the returned
state); and globally no edge in any constructed graph starts at a name whose
lookup fails. -/
theorem failed_lookup_degraded :
    (∀ (reg : String → Option VInfo) (maxD : Nat) (pkg : String) (depth : Nat) (st : St),
      reg pkg = none → depth < maxD → pkg ∉ st.visited →
      addDeps reg maxD pkg depth st =
        { st with visited := pkg :: st.visited,
                  nodes := { name := pkg, label := pkg, gray := true } :: st.nodes,
                  expansions := (pkg, depth) :: st.expansions }) ∧
    (∀ (reg : String → Option VInfo) (maxD : Nat) (root pkg : String),
      reg pkg = none →
      ∀ e ∈ (buildGraph reg maxD root).edges, e.1 ≠ pkg) := by
  constructor
  · intro reg maxD pkg depth st hreg hd hv
    exact addDeps_none_eq reg maxD pkg depth st hreg (by
      rw [not_or]
      exact ⟨by omega, hv⟩)
  · intro reg maxD root pkg hreg e he heq
    have hs := (buildGraph_good reg maxD root).2.2.1 e he
    rw [heq, hreg] at hs
    exact absurd hs (by simp)

/-- Evaluation of the construction on the registry where A requires C and the
lookup of C fails: shared helper. -/
theorem buildGraph_regAC_eval :
    buildGraph regAC 3 "A" =
      { visited := ["C", "A"],
        nodes := [{ name := "C", label := "C", gray := true },
                  { name := "A", label := "A\n1.0", gray := false }],
        edges := [("A", "C")],
        expansions := [("C", 1), ("A", 0)] } := by
  simp [buildGraph, addDeps, goDeps, regAC,
    show extractDepName "C" = "C" from rfl]

/-- Witness: the failed-lookup theorem applied to a failing root expansion
and, for the edge part, to the graph where the failing node C is reached
from A. -/
theorem failed_lookup_degraded_witness :
    addDeps regFail 2 "A" 0 { visited := [], nodes := [], edges := [], expansions := [] } =
      { visited := ["A"],
        nodes := [{ name := "A", label := "A", gray := true }],
        edges := [],
        expansions := [("A", 0)] } ∧
    (("A", "C") : String × String).1 ≠ "C" := by
  constructor
  · exact failed_lookup_degraded.1 regFail 2 "A" 0 _ rfl (by norm_num) (by simp)
  · refine failed_lookup_degraded.2 regAC 3 "A" "C" rfl ("A", "C") ?_
    rw [buildGraph_regAC_eval]
    simp
